import Mathlib

/-!
Shallow embedding of the dawncaster-cards browser client and its test
infrastructure.

Source-backed definitions come from the shared helper module
(src/unnamed/part_000: loadSqlDatabase, finalizeLoading,
handleInitializationError, setupDebouncedInput, resolveElements,
resolveElement) and from the static file server bundled with the
Playwright configuration (src/playwright.config.mjs: resolvePath and the
request handler).

The fetch-cache-render pipeline itself (refresh orchestrator, detail
cache, sanitizer, renderer) lives in cards.html / talents.html, which are
not part of the source tree given here; those components are modelled
from the specification, and each such definition is marked
"Modelled from the spec:" in its doc comment.

Strings are manipulated through explicit structural recursions over
character lists so that every definition evaluates by kernel reduction.
-/

namespace Dawncaster

/-! ### Generic association-list helpers (JavaScript Map operations) -/

/-- Lookup in an association list; models JavaScript Map.prototype.get. -/
def lookupAssoc {κ β : Type} [BEq κ] (l : List (κ × β)) (k : κ) : Option β :=
  (l.find? (fun p => p.1 == k)).map (fun p => p.2)

/-- Insert-or-replace in an association list; models Map.prototype.set. -/
def updateAssoc {κ β : Type} [BEq κ] : List (κ × β) → κ → β → List (κ × β)
  | [], k, v => [(k, v)]
  | p :: rest, k, v => if p.1 == k then (k, v) :: rest else p :: updateAssoc rest k v

/-- Remove a key from an association list; models Map.prototype.delete. -/
def removeAssoc {κ β : Type} [BEq κ] : List (κ × β) → κ → List (κ × β)
  | [], _ => []
  | p :: rest, k => if p.1 == k then removeAssoc rest k else p :: removeAssoc rest k

/-! ### Character-list string helpers -/

/-- Boolean prefix test on character lists. -/
def isPrefixL : List Char → List Char → Bool
  | [], _ => true
  | _ :: _, [] => false
  | a :: as, b :: bs => a == b && isPrefixL as bs

/-- Boolean substring test: does the needle occur anywhere in the haystack? -/
def containsL (needle : List Char) : List Char → Bool
  | [] => isPrefixL needle []
  | c :: rest => isPrefixL needle (c :: rest) || containsL needle rest

/-- String wrapper for substring containment. -/
def containsStr (hay needle : String) : Bool :=
  containsL needle.data hay.data

/-- String wrapper for the prefix test (JavaScript String.prototype.startsWith). -/
def strStartsWith (s pre : String) : Bool :=
  isPrefixL pre.data s.data

/-- Split a character list on a separator character. -/
def splitAux (sep : Char) : List Char → List Char → List (List Char)
  | [], cur => [cur.reverse]
  | c :: rest, cur =>
    if c == sep then cur.reverse :: splitAux sep rest []
    else splitAux sep rest (c :: cur)

/-- Split a string on a single-character separator, as JavaScript
String.prototype.split does for a one-character separator string. -/
def splitOnChar (sep : Char) (s : String) : List String :=
  (splitAux sep s.data []).map String.mk

/-- Join a list of strings with a separator (path segments with slashes). -/
def joinWith (sep : String) : List String → String
  | [] => ""
  | [s] => s
  | s :: rest => s ++ sep ++ joinWith sep rest

/-! ### Debounce semantics (src/unnamed/part_000, setupDebouncedInput)

The listener installed by setupDebouncedInput keeps a single pending
timer: every input event clears any pending timer and schedules the
handler delay milliseconds later.  fireTimes computes, for a sorted list
of input-event timestamps, the times at which the handler actually runs:
the timer armed at event t fires at t + delay unless the next event
arrives strictly before t + delay (clearTimeout on an already-fired timer
is a no-op, so a later event never retracts an earlier firing). -/
def fireTimes (delay : Nat) : List Nat → List Nat
  | [] => []
  | [t] => [t + delay]
  | t :: u :: rest =>
    (if u < t + delay then [] else [t + delay]) ++ fireTimes delay (u :: rest)

/-! ### loadSqlDatabase (src/unnamed/part_000 lines 7-28) -/

/-- Outcome of the browser fetch of the database asset: the response flag
checked via response.ok, and the bytes produced by response.arrayBuffer(). -/
structure FetchResponse where
  ok : Bool
  bytes : List Nat
deriving DecidableEq

/-- Record of one fetch call: the requested URL and the cache mode passed
in the init object. -/
structure FetchCall where
  url : String
  cache : String
deriving DecidableEq

/-- Environment for loadSqlDatabase: whether the global initSqlJs is a
function (the sql.js CDN script loaded), and the response the browser
produces for a fetch of a given path.  initSqlJs itself is an external
collaborator modelled as succeeding. -/
structure SqlJsEnv where
  initSqlJsLoaded : Bool
  response : String → FetchResponse

/-- Result of new SQL.Database(new Uint8Array(buffer)): a database built
from the fetched bytes. -/
structure Database where
  bytes : List Nat
deriving DecidableEq

/-- Embedding of loadSqlDatabase: throws when initSqlJs is not a function,
fetches the database path with cache "no-store", throws when the response
is not ok, and otherwise constructs the database from the buffer.  The
second component logs the fetch calls issued. -/
def loadSqlDatabase (env : SqlJsEnv) (dbPath : String) :
    Except String Database × List FetchCall :=
  if env.initSqlJsLoaded = false then
    (Except.error "sql.js library not loaded", [])
  else
    let resp := env.response dbPath
    let calls := [FetchCall.mk dbPath "no-store"]
    if resp.ok = false then
      (Except.error "Failed to load database file", calls)
    else
      (Except.ok (Database.mk resp.bytes), calls)

/-- Boolean test for the error side of an Except result. -/
def resultIsError {α β : Type} : Except α β → Bool
  | Except.error _ => true
  | Except.ok _ => false

/-! ### Static file server (src/playwright.config.mjs lines 41-87)

Absolute POSIX paths are represented as their component lists; rootDir is
given as such a list and rendered to a string for the prefix check, which
is exactly what the source's fullPath.startsWith(rootDir) does. -/

/-- Value of a hexadecimal digit, for percent-decoding. -/
def hexDigit (c : Char) : Option Nat :=
  if '0' ≤ c ∧ c ≤ '9' then some (c.toNat - '0'.toNat)
  else if 'a' ≤ c ∧ c ≤ 'f' then some (c.toNat - 'a'.toNat + 10)
  else if 'A' ≤ c ∧ c ≤ 'F' then some (c.toNat - 'A'.toNat + 10)
  else none

/-- Percent-decoding of a character list, modelling decodeURIComponent for
single-byte escapes (multi-byte UTF-8 sequences and the URIError on
malformed escapes are outside the modelled input space; no claim depends
on them). -/
def pctDecodeAux : List Char → List Char
  | [] => []
  | '%' :: a :: b :: rest =>
    match hexDigit a, hexDigit b with
    | some x, some y => Char.ofNat (16 * x + y) :: pctDecodeAux rest
    | _, _ => '%' :: pctDecodeAux (a :: b :: rest)
  | c :: rest => c :: pctDecodeAux rest

/-- String wrapper for percent-decoding. -/
def percentDecode (s : String) : String :=
  String.mk (pctDecodeAux s.data)

/-- Normalization step of Node's path.resolve: fold relative segments over
the (already absolute, already normalized) base directory components;
".." pops a component, "." and empty segments vanish, everything else is
appended.  Popping stops at the filesystem root, as dropLast on [] is []. -/
def normSegs (acc : List String) : List String → List String
  | [] => acc
  | seg :: rest =>
    if seg == "" || seg == "." then normSegs acc rest
    else if seg == ".." then normSegs acc.dropLast rest
    else normSegs (acc ++ [seg]) rest

/-- Render absolute path components to the path string path.resolve returns. -/
def joinAbs (comps : List String) : String :=
  "/" ++ joinWith "/" comps

/-- Embedding of resolvePath: strip the query string, percent-decode, map
"/" to "/index.html", resolve "." ++ relativePath against rootDir, and
return the full path only when it passes the startsWith(rootDir) check. -/
def resolvePath (rootComps : List String) (urlPath : String) : Option String :=
  let decoded := percentDecode ((splitOnChar '?' urlPath).headD "")
  let relativePath := if decoded == "/" then "/index.html" else decoded
  let fullPath := joinAbs (normSegs rootComps (splitOnChar '/' ("." ++ relativePath)))
  if strStartsWith fullPath (joinAbs rootComps) then some fullPath else none

/-- A node of the filesystem visible to the static server. -/
inductive FsNode where
  | dir
  | file (content : String)
deriving DecidableEq

/-- HTTP response produced by the server: status code and body.  Headers
are not modelled; no claim concerns them. -/
structure HttpResponse where
  status : Nat
  body : String
deriving DecidableEq

/-- Embedding of the createServer request handler.  The filesystem is a
partial map from absolute path strings to nodes; a missing path makes
stat throw, which the source catches as 404.  The second component logs
every path the handler accesses on disk, so "never reads any file" is the
statement that this log is empty. -/
def serveRequest (fs : String → Option FsNode) (rootComps : List String)
    (requestUrl : Option String) : HttpResponse × List String :=
  match requestUrl with
  | none => (HttpResponse.mk 400 "Bad Request", [])
  | some url =>
    if url == "" then (HttpResponse.mk 400 "Bad Request", [])
    else
      match resolvePath rootComps url with
      | none => (HttpResponse.mk 403 "Forbidden", [])
      | some p =>
        match fs p with
        | none => (HttpResponse.mk 404 "Not Found", [p])
        | some FsNode.dir => (HttpResponse.mk 403 "Forbidden", [p])
        | some (FsNode.file content) => (HttpResponse.mk 200 content, [p])

/-- Demonstration filesystem: the served root /a/root with its index page,
and a sibling directory /a/rootx holding a file that must never be served
if root confinement holds. -/
def escapeDemoFs : String → Option FsNode := fun p =>
  if p == "/a/root" then some FsNode.dir
  else if p == "/a/root/index.html" then some (FsNode.file "home")
  else if p == "/a/rootx" then some FsNode.dir
  else if p == "/a/rootx/secret" then some (FsNode.file "top secret")
  else none

/-! ### DOM helper module (src/unnamed/part_000 lines 30-121)

DOM elements are opaque handles; the document is a record of the three
lookup operations the helpers use.  Helpers return the list of DOM
mutations they perform, so "silently skips an absent element" is the
statement that no effect targets it. -/

/-- Opaque handle to a DOM element. -/
abbrev Element := Nat

/-- The document as seen by the helpers: getElementById, querySelector
and querySelectorAll. -/
structure Dom where
  byId : String → Option Element
  queryOne : String → Option Element
  queryAll : String → List Element

/-- The selectorOrElement / selectorOrElements argument domain: null or
undefined, a selector string, a single Element, or an element collection. -/
inductive SelOrEl where
  | nullish
  | selector (s : String)
  | single (e : Element)
  | collection (es : List Element)

/-- JavaScript truthiness test used by the resolve helpers' first guard:
null, undefined and the empty string are falsy. -/
def selFalsy : SelOrEl → Bool
  | SelOrEl.nullish => true
  | SelOrEl.selector s => s == ""
  | _ => false

/-- Embedding of resolveElement: falsy input yields null, a selector is
looked up with querySelector, an Element is returned as is, and anything
else (including a collection) falls through to null. -/
def resolveElement (dom : Dom) (x : SelOrEl) : Option Element :=
  if selFalsy x then none
  else
    match x with
    | SelOrEl.selector s => dom.queryOne s
    | SelOrEl.single e => some e
    | _ => none

/-- Embedding of resolveElements: falsy input yields the empty list, a
selector is expanded with querySelectorAll, a single Element becomes a
one-element list, and a collection is converted with Array.from. -/
def resolveElements (dom : Dom) (x : SelOrEl) : List Element :=
  if selFalsy x then []
  else
    match x with
    | SelOrEl.selector s => dom.queryAll s
    | SelOrEl.single e => [e]
    | SelOrEl.collection es => es
    | SelOrEl.nullish => []

/-- A DOM mutation or registration performed by a helper. -/
inductive DomEffect where
  | setDisplay (e : Element) (value : String)
  | setInnerHTML (e : Element) (value : String)
  | addListener (e : Element) (event : String)
deriving DecidableEq

/-- The cancel function setupDebouncedInput returns: a no-op closure when
the element could not be resolved, otherwise a closure clearing the
pending timer. -/
inductive CancelFn where
  | noop
  | clearsTimer
deriving DecidableEq

/-- Embedding of setupDebouncedInput's registration behaviour: an
unresolvable element registers nothing and returns the no-op cancel
function; otherwise an input listener is added and the timer-clearing
cancel function returned.  The timing behaviour of the installed listener
is fireTimes. -/
def setupDebouncedInput (dom : Dom) (x : SelOrEl) (delay : Nat) :
    List DomEffect × CancelFn :=
  match resolveElement dom x with
  | none => ([], CancelFn.noop)
  | some e => ([DomEffect.addListener e "input"], CancelFn.clearsTimer)

/-- Embedding of attachFilterListeners: a change listener on every
resolved element. -/
def attachFilterListeners (dom : Dom) (x : SelOrEl) : List DomEffect :=
  (resolveElements dom x).map (fun e => DomEffect.addListener e "change")

/-- Options object of finalizeLoading. -/
structure FinalizeConfig where
  loadingId : String
  filtersSelector : String
  resultsInfoId : String

/-- Default options of finalizeLoading. -/
def defaultFinalizeConfig : FinalizeConfig :=
  FinalizeConfig.mk "loading" ".filters" "resultsInfo"

/-- Embedding of finalizeLoading: hide the loading element, reveal the
filter panel and the results info, each step skipped when its element is
absent, and the selector and id guarded by a truthiness check. -/
def finalizeLoading (dom : Dom) (cfg : FinalizeConfig) : List DomEffect :=
  (match dom.byId cfg.loadingId with
   | some e => [DomEffect.setDisplay e "none"]
   | none => []) ++
  (if cfg.filtersSelector == "" then []
   else
     match dom.queryOne cfg.filtersSelector with
     | some e => [DomEffect.setDisplay e ""]
     | none => []) ++
  (if cfg.resultsInfoId == "" then []
   else
     match dom.byId cfg.resultsInfoId with
     | some e => [DomEffect.setDisplay e "block"]
     | none => [])

/-- The HTML string handleInitializationError assigns to innerHTML: the
error paragraph template with the raw message interpolated. -/
def errorParagraphHTML (msg : String) : String :=
  "<p class=\"error\">Error loading database: " ++ msg ++ "</p>"

/-- Embedding of handleInitializationError: write the error paragraph into
the loading element via innerHTML, skipping a missing element.  The
console.error call has no DOM effect and is not modelled. -/
def handleInitializationError (dom : Dom) (loadingId : String) (msg : String) :
    List DomEffect :=
  match dom.byId loadingId with
  | some e => [DomEffect.setInnerHTML e (errorParagraphHTML msg)]
  | none => []

/-! ### Sanitizer -/

/-- Tag-stripping pass over a character list; the flag records whether the
scanner is inside an angle-bracketed tag, whose characters (attributes
included) are dropped. -/
def stripTagsAux : Bool → List Char → List Char
  | _, [] => []
  | true, c :: rest =>
    if c == '>' then stripTagsAux false rest else stripTagsAux true rest
  | false, c :: rest =>
    if c == '<' then stripTagsAux true rest else c :: stripTagsAux false rest

/-- Entity-decoding pass: the five standard named and numeric entities are
replaced by their literal characters. -/
def decodeEntitiesAux : List Char → List Char
  | '&' :: 'a' :: 'm' :: 'p' :: ';' :: rest => '&' :: decodeEntitiesAux rest
  | '&' :: 'l' :: 't' :: ';' :: rest => '<' :: decodeEntitiesAux rest
  | '&' :: 'g' :: 't' :: ';' :: rest => '>' :: decodeEntitiesAux rest
  | '&' :: 'q' :: 'u' :: 'o' :: 't' :: ';' :: rest => '"' :: decodeEntitiesAux rest
  | '&' :: '#' :: '3' :: '9' :: ';' :: rest => Char.ofNat 39 :: decodeEntitiesAux rest
  | c :: rest => c :: decodeEntitiesAux rest
  | [] => []

/-- Modelled from the spec: the sanitizer (DOMPurify with an empty
allowed-tag set, a CDN collaborator absent from the given sources)
reduces untrusted text to plain text: no tags or attributes preserved,
HTML entities decoded to their literal characters. -/
def sanitize (s : String) : String :=
  String.mk (decodeEntitiesAux (stripTagsAux false s.data))

/-! ### Detail Cache

Modelled from the spec (sections 3 and 4.3): the per-identifier detail
cache of cards.html / talents.html, which is not part of the given
sources.  An entry is either in flight with the list of callers waiting
on the shared request, or a resolved record; the request log records
every network request issued. -/

/-- Detail payload for one identifier. -/
structure DetailRecord where
  description : String
deriving DecidableEq

/-- Modelled from the spec: a cache entry is a pending shared request with
its waiting callers, or the resolved detail record. -/
inductive CacheEntry where
  | pending (waiters : List Nat)
  | resolved (v : DetailRecord)
deriving DecidableEq

/-- Modelled from the spec: cache state, entries plus the log of network
requests issued over the cache's lifetime. -/
structure DetailCache where
  entries : List (String × CacheEntry)
  reqLog : List String
deriving DecidableEq

/-- Entry lookup by identifier. -/
def lookupEntry (c : DetailCache) (id : String) : Option CacheEntry :=
  lookupAssoc c.entries id

/-- The fresh cache at page load. -/
def emptyCache : DetailCache :=
  DetailCache.mk [] []

/-- Modelled from the spec: getDetail for one caller.  A resolved entry is
returned immediately with no network access; an in-flight entry absorbs
the caller as a waiter on the shared request; otherwise a new request is
issued (logged) and stored as in flight.  The second component is the
immediately available value, none while the caller waits on a request. -/
def getDetail (c : DetailCache) (id : String) (caller : Nat) :
    DetailCache × Option DetailRecord :=
  match lookupEntry c id with
  | some (CacheEntry.resolved v) => (c, some v)
  | some (CacheEntry.pending ws) =>
    (DetailCache.mk (updateAssoc c.entries id (CacheEntry.pending (ws ++ [caller]))) c.reqLog,
     none)
  | none =>
    (DetailCache.mk (updateAssoc c.entries id (CacheEntry.pending [caller])) (c.reqLog ++ [id]),
     none)

/-- Modelled from the spec: settlement of the in-flight request for an
identifier.  Success stores the resolved record and delivers it to every
waiter; failure removes the entry (no negative caching) and rejects every
waiter.  The second component lists the deliveries (caller, outcome). -/
def settleDetail (c : DetailCache) (id : String) (res : Option DetailRecord) :
    DetailCache × List (Nat × Option DetailRecord) :=
  match lookupEntry c id with
  | some (CacheEntry.pending ws) =>
    match res with
    | some v =>
      (DetailCache.mk (updateAssoc c.entries id (CacheEntry.resolved v)) c.reqLog,
       ws.map (fun w => (w, some v)))
    | none =>
      (DetailCache.mk (removeAssoc c.entries id) c.reqLog,
       ws.map (fun w => (w, none)))
  | _ => (c, [])

/-- N concurrent getDetail calls for one identifier, callers 0..n-1, all
issued from the fresh cache before any request settles. -/
def runCalls (id : String) : Nat → DetailCache
  | 0 => emptyCache
  | n + 1 => (getDetail (runCalls id n) id n).1

/-! ### Refresh Orchestrator token discipline

Modelled from the spec (sections 3, 4.4 and 5): the generation-counter
race guard of cards.html / talents.html, which is not part of the given
sources.  A refresh cycle captures a fresh token at its start; the commit
step writes to the DOM only when that token still equals the counter. -/

/-- An observable event of the orchestrator: the start of a refresh cycle
(allocating its token) or its commit attempt carrying rendered output. -/
inductive RefreshEvent where
  | start (cycle : Nat)
  | commit (cycle : Nat) (out : String)
deriving DecidableEq

/-- Orchestrator state: the token counter, the token captured by each
started cycle, and the log of outputs actually written to the DOM. -/
structure OrchState where
  counter : Nat
  tok : List (Nat × Nat)
  dom : List String
deriving DecidableEq

/-- Token captured by a cycle at its start, if it has started. -/
def tokOf (s : OrchState) (c : Nat) : Option Nat :=
  lookupAssoc s.tok c

/-- Modelled from the spec: one orchestrator step.  A start increments the
counter and records the new token for the cycle; a commit writes its
output to the DOM exactly when the cycle's token is still the latest, and
is discarded silently otherwise. -/
def orchStep (s : OrchState) : RefreshEvent → OrchState
  | RefreshEvent.start c =>
    OrchState.mk (s.counter + 1) (updateAssoc s.tok c (s.counter + 1)) s.dom
  | RefreshEvent.commit c out =>
    match tokOf s c with
    | some t => if t = s.counter then OrchState.mk s.counter s.tok (s.dom ++ [out]) else s
    | none => s

/-- Run of the orchestrator from the initial state over an event list. -/
def orchRun (evs : List RefreshEvent) : OrchState :=
  evs.foldl orchStep (OrchState.mk 0 [] [])

/-! ### Renderer

Modelled from the spec (sections 4.4 step 4, 4.6 and 7): pure rendering
of a refresh cycle's settled results; a record whose detail fetch failed
renders as a fallback row, every text field passing through the
sanitizer. -/

/-- Summary record from the list query. -/
structure SummaryRecord where
  id : String
  name : String
deriving DecidableEq

/-- A rendered table row: full detail or the fallback representation for a
record whose detail fetch failed. -/
inductive RenderedRow where
  | full (name description : String)
  | fallback (name : String)
deriving DecidableEq

/-- Fallback discriminator on rendered rows. -/
def isFallback : RenderedRow → Bool
  | RenderedRow.fallback _ => true
  | RenderedRow.full _ _ => false

/-- Modelled from the spec: render one record from its summary and its
settled detail outcome; a failed detail fetch yields the fallback row. -/
def renderRow (s : SummaryRecord) (d : Option DetailRecord) : RenderedRow :=
  match d with
  | some det => RenderedRow.full (sanitize s.name) (sanitize det.description)
  | none => RenderedRow.fallback (sanitize s.name)

/-- Modelled from the spec: render a whole cycle's settled results. -/
def renderCycle (results : List (SummaryRecord × Option DetailRecord)) :
    List RenderedRow :=
  results.map (fun r => renderRow r.1 r.2)

/-- Modelled from the spec: the commit step never turns a per-identifier
detail failure into a cycle-level error. -/
def commitCycle (results : List (SummaryRecord × Option DetailRecord)) :
    Except String (List RenderedRow) :=
  Except.ok (renderCycle results)

/-- Concrete document with only a loading element, for closed evaluations. -/
def demoDom : Dom :=
  Dom.mk (fun i => if i == "loading" then some 0 else none) (fun _ => none) (fun _ => [])

/-- Concrete document with no elements at all. -/
def emptyDom : Dom :=
  Dom.mk (fun _ => none) (fun _ => none) (fun _ => [])

/-- Record with a missing detail payload (its detail fetch failed). -/
def detailMissing (r : SummaryRecord × Option DetailRecord) : Bool :=
  r.2.isNone

/-- A rendered row carrying full detail. -/
def isFullRow (r : RenderedRow) : Bool :=
  !isFallback r

/-- Delivery of one settlement outcome to a list of waiting callers. -/
def broadcast (callers : List Nat) (res : Option DetailRecord) :
    List (Nat × Option DetailRecord) :=
  callers.map (fun w => (w, res))

/-- Concrete healthy environment for loadSqlDatabase evaluations. -/
def demoSqlEnv : SqlJsEnv :=
  SqlJsEnv.mk true (fun _ => FetchResponse.mk true [7, 7, 7])

/-- Concrete environment in which the sql.js CDN script did not load. -/
def demoSqlEnvNoLib : SqlJsEnv :=
  SqlJsEnv.mk false (fun _ => FetchResponse.mk true [7, 7, 7])

/-! ## Shared lemmas -/

/-- A list is always a prefix of itself followed by anything. -/
theorem isPrefixL_self_append (n t : List Char) : isPrefixL n (n ++ t) = true := by
  induction n with
  | nil => rfl
  | cons a as ih => simp [isPrefixL, ih]

/-- Prefixes are stable under extending the larger list on the right. -/
theorem isPrefixL_append_of (p q t : List Char) (h : isPrefixL p q = true) :
    isPrefixL p (q ++ t) = true := by
  induction p generalizing q with
  | nil => rfl
  | cons a as ih =>
    cases q with
    | nil => simp [isPrefixL] at h
    | cons b bs =>
      simp [isPrefixL] at h ⊢
      exact ⟨h.1, ih bs h.2⟩

/-- A prefix occurrence is in particular a substring occurrence. -/
theorem containsL_of_isPrefixL {n h : List Char} (hp : isPrefixL n h = true) :
    containsL n h = true := by
  cases h with
  | nil => simpa [containsL] using hp
  | cons c rest => simp [containsL, hp]

/-- Substring occurrences survive prepending characters. -/
theorem containsL_append_left (p : List Char) {n h : List Char}
    (hc : containsL n h = true) : containsL n (p ++ h) = true := by
  induction p with
  | nil => simpa using hc
  | cons c cs ih => simp [containsL, ih]

/-- A string occurs in any sandwich around it. -/
theorem containsStr_append (p m s : String) : containsStr (p ++ m ++ s) m = true := by
  have h1 : containsL m.data (m.data ++ s.data) = true :=
    containsL_of_isPrefixL (isPrefixL_self_append m.data s.data)
  have h2 := containsL_append_left p.data h1
  simpa [containsStr, String.data_append, List.append_assoc] using h2

/-- Lookup after inserting a key finds the inserted value. -/
theorem lookupAssoc_update_self {κ β : Type} [BEq κ] [LawfulBEq κ]
    (l : List (κ × β)) (k : κ) (v : β) :
    lookupAssoc (updateAssoc l k v) k = some v := by
  induction l with
  | nil => simp [updateAssoc, lookupAssoc, List.find?]
  | cons p rest ih =>
    by_cases h : p.1 == k
    · simp [updateAssoc, h, lookupAssoc, List.find?]
    · simp only [updateAssoc, h]
      simpa [lookupAssoc, List.find?, h] using ih

/-- Lookup of a different key is unchanged by an insertion. -/
theorem lookupAssoc_update_ne {κ β : Type} [BEq κ] [LawfulBEq κ]
    (l : List (κ × β)) (k k' : κ) (v : β) (hne : k ≠ k') :
    lookupAssoc (updateAssoc l k v) k' = lookupAssoc l k' := by
  have hkk : (k == k') = false := beq_eq_false_iff_ne.mpr hne
  induction l with
  | nil => simp [updateAssoc, lookupAssoc, List.find?, hkk]
  | cons p rest ih =>
    by_cases h : p.1 == k
    · have hp : p.1 = k := eq_of_beq h
      have hp' : (p.1 == k') = false := by
        rw [hp]; exact hkk
      simp [updateAssoc, h, lookupAssoc, List.find?, hkk, hp']
    · by_cases h' : p.1 == k'
      · simp [updateAssoc, h, lookupAssoc, List.find?, h']
      · simp only [updateAssoc, h]
        simpa [lookupAssoc, List.find?, h'] using ih

/-- Lookup after removing a key finds nothing. -/
theorem lookupAssoc_remove_self {κ β : Type} [BEq κ] [LawfulBEq κ]
    (l : List (κ × β)) (k : κ) :
    lookupAssoc (removeAssoc l k) k = none := by
  induction l with
  | nil => rfl
  | cons p rest ih =>
    by_cases h : p.1 == k
    · simpa [removeAssoc, h] using ih
    · simp only [removeAssoc, h]
      simpa [lookupAssoc, List.find?, h] using ih

/-- Counting the complement of a predicate counts the remaining length. -/
theorem countP_not_length {α : Type} (p : α → Bool) (l : List α) :
    l.countP (fun a => !p a) = l.length - l.countP p := by
  induction l with
  | nil => rfl
  | cons a l ih =>
    have hle : l.countP p ≤ l.length := List.countP_le_length p
    cases hpa : p a <;> simp [List.countP_cons, hpa, ih] <;> omega

/-- The token counter never decreases across an orchestrator step. -/
theorem orchStep_counter_le (s : OrchState) (ev : RefreshEvent) :
    s.counter ≤ (orchStep s ev).counter := by
  cases ev with
  | start c => simp [orchStep]
  | commit c out =>
    cases h : tokOf s c with
    | none => simp [orchStep, h]
    | some t =>
      by_cases ht : t = s.counter <;> simp [orchStep, h, ht]

/-- Starting a cycle bumps the counter by one. -/
theorem orchStep_counter_start (s : OrchState) (c : Nat) :
    (orchStep s (RefreshEvent.start c)).counter = s.counter + 1 := rfl

/-- A commit never changes any cycle's captured token. -/
theorem tokOf_orchStep_commit (s : OrchState) (c : Nat) (out : String) (A : Nat) :
    tokOf (orchStep s (RefreshEvent.commit c out)) A = tokOf s A := by
  cases h : tokOf s c with
  | none => simp [orchStep, h]
  | some t =>
    simp only [orchStep, h]
    by_cases ht : t = s.counter
    · rw [if_pos ht]; rfl
    · rw [if_neg ht]

/-- Starting a different cycle leaves a cycle's token unchanged. -/
theorem tokOf_orchStep_start_ne (s : OrchState) (c A : Nat) (h : c ≠ A) :
    tokOf (orchStep s (RefreshEvent.start c)) A = tokOf s A := by
  simp only [orchStep, tokOf]
  exact lookupAssoc_update_ne s.tok c A (s.counter + 1) h

/-- Starting a cycle captures the new counter value as its token. -/
theorem tokOf_orchStep_start_self (s : OrchState) (A : Nat) :
    tokOf (orchStep s (RefreshEvent.start A)) A
      = some (orchStep s (RefreshEvent.start A)).counter := by
  simp only [orchStep, tokOf]
  exact lookupAssoc_update_self s.tok A (s.counter + 1)

/-- Over any run that never restarts cycle A, A's captured token is
preserved and the counter never decreases. -/
theorem orch_foldl_preserves (A k : Nat) (l : List RefreshEvent) :
    ∀ (s : OrchState), tokOf s A = some k → RefreshEvent.start A ∉ l →
      tokOf (l.foldl orchStep s) A = some k
      ∧ s.counter ≤ (l.foldl orchStep s).counter := by
  induction l with
  | nil => intro s h _; exact ⟨h, le_refl _⟩
  | cons ev rest ih =>
    intro s h hnot
    have hne : ev ≠ RefreshEvent.start A := fun hh => hnot (hh ▸ List.mem_cons_self ev rest)
    have h1 : tokOf (orchStep s ev) A = some k := by
      cases ev with
      | start c =>
        have hcA : c ≠ A := fun hc => hne (by rw [hc])
        rw [tokOf_orchStep_start_ne s c A hcA]; exact h
      | commit c out => rw [tokOf_orchStep_commit]; exact h
    have h2 := ih (orchStep s ev) h1 (fun hm => hnot (List.mem_cons_of_mem ev hm))
    exact ⟨h2.1, le_trans (orchStep_counter_le s ev) h2.2⟩

/-- Once some other cycle starts, the counter strictly exceeds A's token
and stays that way while A never restarts. -/
theorem orch_counter_gt (A B k : Nat) (mid : List RefreshEvent) (s : OrchState)
    (htok : tokOf s A = some k) (hcnt : k ≤ s.counter)
    (hB : RefreshEvent.start B ∈ mid) (hA : RefreshEvent.start A ∉ mid) :
    tokOf (mid.foldl orchStep s) A = some k
    ∧ k < (mid.foldl orchStep s).counter := by
  obtain ⟨m1, m2, rfl⟩ := List.append_of_mem hB
  have hA1 : RefreshEvent.start A ∉ m1 := fun hm => hA (List.mem_append_left _ hm)
  have hA2 : RefreshEvent.start A ∉ m2 :=
    fun hm => hA (List.mem_append_right m1 (List.mem_cons_of_mem _ hm))
  have hBA : B ≠ A := by
    intro hb
    subst hb
    exact hA (List.mem_append_right m1 (List.mem_cons_self _ _))
  have p1 := orch_foldl_preserves A k m1 s htok hA1
  have htokB : tokOf (orchStep (m1.foldl orchStep s) (RefreshEvent.start B)) A = some k := by
    rw [tokOf_orchStep_start_ne _ B A hBA]; exact p1.1
  have hcntB : k < (orchStep (m1.foldl orchStep s) (RefreshEvent.start B)).counter := by
    rw [orchStep_counter_start]
    have := p1.2
    omega
  have p2 := orch_foldl_preserves A k m2
    (orchStep (m1.foldl orchStep s) (RefreshEvent.start B)) htokB hA2
  constructor
  · rw [List.foldl_append, List.foldl_cons]; exact p2.1
  · rw [List.foldl_append, List.foldl_cons]
    exact lt_of_lt_of_le hcntB p2.2

/-- Claim C1: once refresh cycle B allocates its token after cycle A and
before A's commit step, A's commit writes nothing: the run with A's
commit attempt equals the run without it, whatever events surround them,
so only the cycle holding the latest token ever commits and a superseded
cycle's successfully computed output is discarded silently. -/
theorem superseded_cycle_never_commits
    (pre mid post : List RefreshEvent) (A B : Nat) (outA : String)
    (hB : RefreshEvent.start B ∈ mid) (hA : RefreshEvent.start A ∉ mid) :
    orchRun (pre ++ RefreshEvent.start A :: mid ++ RefreshEvent.commit A outA :: post)
      = orchRun (pre ++ RefreshEvent.start A :: mid ++ post) := by
  have base :
      orchStep
          (List.foldl orchStep (OrchState.mk 0 [] []) ((pre ++ [RefreshEvent.start A]) ++ mid))
          (RefreshEvent.commit A outA)
        = List.foldl orchStep (OrchState.mk 0 [] []) ((pre ++ [RefreshEvent.start A]) ++ mid) := by
    rw [List.foldl_append, List.foldl_append]
    simp only [List.foldl_cons, List.foldl_nil]
    have htok2 := tokOf_orchStep_start_self (List.foldl orchStep (OrchState.mk 0 [] []) pre) A
    set s2 := orchStep (List.foldl orchStep (OrchState.mk 0 [] []) pre) (RefreshEvent.start A)
      with hs2
    set s3 := List.foldl orchStep s2 mid with hs3
    have hgt : tokOf s3 A = some s2.counter ∧ s2.counter < s3.counter :=
      orch_counter_gt A B s2.counter mid s2 htok2 (le_refl _) hB hA
    show orchStep s3 (RefreshEvent.commit A outA) = s3
    simp only [orchStep, hgt.1]
    rw [if_neg (Nat.ne_of_lt hgt.2)]
  have e1 : pre ++ RefreshEvent.start A :: mid ++ RefreshEvent.commit A outA :: post
      = ((pre ++ [RefreshEvent.start A]) ++ mid) ++ RefreshEvent.commit A outA :: post := by
    simp
  have e2 : pre ++ RefreshEvent.start A :: mid ++ post
      = ((pre ++ [RefreshEvent.start A]) ++ mid) ++ post := by
    simp
  unfold orchRun
  rw [e1, e2, List.foldl_append, List.foldl_cons, base]
  conv_rhs => rw [List.foldl_append, List.foldl_append]
  conv_lhs => rw [List.foldl_append]

/-- Cycle 0 starts, cycle 1 supersedes it, and cycle 0's commit of its
rows is then a no-op on the run. -/
theorem superseded_cycle_never_commits_witness :
    orchRun [RefreshEvent.start 0, RefreshEvent.start 1, RefreshEvent.commit 0 "rows"]
      = orchRun [RefreshEvent.start 0, RefreshEvent.start 1] :=
  superseded_cycle_never_commits [] [RefreshEvent.start 1] [] 0 1 "rows"
    (by decide) (by decide)

/-- Shape of the cache after N concurrent calls from the fresh cache: one
in-flight entry holding all N callers, and exactly one logged request. -/
theorem runCalls_eq (id : String) :
    ∀ n : Nat, 1 ≤ n →
      runCalls id n = DetailCache.mk [(id, CacheEntry.pending (List.range n))] [id] := by
  intro n
  induction n with
  | zero => intro h; omega
  | succ m ih =>
    intro _
    cases m with
    | zero =>
      simp [runCalls, getDetail, emptyCache, lookupEntry, lookupAssoc, List.find?,
        updateAssoc, List.range_succ]
    | succ m' =>
      have hm : 1 ≤ m' + 1 := by omega
      have h := ih hm
      rw [runCalls, h]
      simp [getDetail, lookupEntry, lookupAssoc, List.find?, updateAssoc, List.range_succ]

/-- Claim C2: across N concurrent getDetail calls for one identifier, all
issued before any settles, exactly one network request is logged, the
settlement of that single shared request delivers the same value to all N
callers, and a call finding any live entry (resolved or in flight) never
issues a request. -/
theorem getDetail_dedup (id : String) (v : DetailRecord) (n : Nat)
    (c : DetailCache) (caller : Nat)
    (hn : 1 ≤ n) (hc : lookupEntry c id ≠ none) :
    (runCalls id n).reqLog = [id]
    ∧ (settleDetail (runCalls id n) id (some v)).2 = broadcast (List.range n) (some v)
    ∧ (getDetail c id caller).1.reqLog = c.reqLog := by
  have h := runCalls_eq id n hn
  refine ⟨by rw [h], ?_, ?_⟩
  · rw [h]
    simp [settleDetail, lookupEntry, lookupAssoc, List.find?, broadcast]
  · rcases he : lookupEntry c id with _ | e
    · exact absurd he hc
    · cases e <;> simp [getDetail, he]

/-- Three concurrent callers for one identifier share one request and all
receive the settled record. -/
theorem getDetail_dedup_witness :
    (runCalls "card-1" 3).reqLog = ["card-1"]
    ∧ (settleDetail (runCalls "card-1" 3) "card-1" (some (DetailRecord.mk "d"))).2
        = broadcast (List.range 3) (some (DetailRecord.mk "d"))
    ∧ (getDetail (runCalls "card-1" 3) "card-1" 3).1.reqLog = (runCalls "card-1" 3).reqLog :=
  getDetail_dedup "card-1" (DetailRecord.mk "d") 3 (runCalls "card-1" 3) 3
    (by decide) (by decide)

/-- Claim C5: after a failed settlement the cache stores no negative
result: the entry is gone, every waiter is rejected, and the next
getDetail call for the identifier issues a fresh network request. -/
theorem getDetail_retries_after_failure (c : DetailCache) (id : String)
    (ws : List Nat) (caller : Nat)
    (h : lookupEntry c id = some (CacheEntry.pending ws)) :
    lookupEntry (settleDetail c id none).1 id = none
    ∧ (getDetail (settleDetail c id none).1 id caller).1.reqLog = c.reqLog ++ [id]
    ∧ (settleDetail c id none).2 = broadcast ws none := by
  have h1 : (settleDetail c id none).1 = DetailCache.mk (removeAssoc c.entries id) c.reqLog := by
    simp [settleDetail, h]
  have h2 : lookupEntry (settleDetail c id none).1 id = none := by
    rw [h1]
    exact lookupAssoc_remove_self c.entries id
  refine ⟨h2, ?_, by simp [settleDetail, h, broadcast]⟩
  rw [h1] at h2 ⊢
  simp [getDetail, h2]

/-- A failed settlement for an in-flight identifier with two waiters
rejects both and makes the next call re-request. -/
theorem getDetail_retries_after_failure_witness :
    lookupEntry (settleDetail (DetailCache.mk [("x", CacheEntry.pending [0, 1])] ["x"]) "x" none).1 "x"
        = none
    ∧ (getDetail (settleDetail (DetailCache.mk [("x", CacheEntry.pending [0, 1])] ["x"]) "x" none).1
          "x" 2).1.reqLog
        = (DetailCache.mk [("x", CacheEntry.pending [0, 1])] ["x"]).reqLog ++ ["x"]
    ∧ (settleDetail (DetailCache.mk [("x", CacheEntry.pending [0, 1])] ["x"]) "x" none).2
        = broadcast [0, 1] none :=
  getDetail_retries_after_failure (DetailCache.mk [("x", CacheEntry.pending [0, 1])] ["x"])
    "x" [0, 1] 2 (by decide)

/-- Claim C3: for input events spaced less than the debounce window apart,
the handler installed by setupDebouncedInput fires exactly once, one
window after the last event: every event cancels the pending timer and
arms a fresh one, so no intermediate firing survives. -/
theorem debounced_handler_fires_once (delay t : Nat) (ts : List Nat)
    (hc : List.Chain' (fun a b => a < b ∧ b < a + delay) (t :: ts)) :
    fireTimes delay (t :: ts) = [(t :: ts).getLast (List.cons_ne_nil t ts) + delay] := by
  induction ts generalizing t with
  | nil => simp [fireTimes]
  | cons u rest ih =>
    have h1 : u < t + delay := (List.chain'_cons.mp hc).1.2
    have h2 : List.Chain' (fun a b => a < b ∧ b < a + delay) (u :: rest) :=
      (List.chain'_cons.mp hc).2
    have h3 := ih u h2
    simp [fireTimes, h1, h3, List.getLast_cons]

/-- Three keystrokes 100 and 150 milliseconds apart, inside the default
300 millisecond window, produce exactly one firing at time 550. -/
theorem debounced_handler_fires_once_witness :
    fireTimes 300 [0, 100, 250]
      = [([0, 100, 250] : List Nat).getLast (List.cons_ne_nil 0 [100, 250]) + 300] :=
  debounced_handler_fires_once 300 0 [100, 250] (by simp [List.chain'_cons])

/-- Rendering a record yields a fallback row exactly when its detail is missing. -/
theorem isFallback_renderRow (s : SummaryRecord) (d : Option DetailRecord) :
    isFallback (renderRow s d) = d.isNone := by
  cases d <;> rfl

/-- Claim C6: a refresh cycle over N records with exactly one failed
detail fetch still commits N rows, one fallback and N-1 full, and the
commit succeeds rather than aborting on the failure. -/
theorem renderCycle_partial_failure (results : List (SummaryRecord × Option DetailRecord))
    (h : results.countP detailMissing = 1) :
    (renderCycle results).length = results.length
    ∧ (renderCycle results).countP isFallback = 1
    ∧ (renderCycle results).countP isFullRow = results.length - 1
    ∧ commitCycle results = Except.ok (renderCycle results) := by
  have hmap : (renderCycle results).countP isFallback = results.countP detailMissing := by
    rw [renderCycle, List.countP_map]
    refine List.countP_congr ?_
    intro r _
    simp [Function.comp, isFallback_renderRow, detailMissing]
  have hlen : (renderCycle results).length = results.length := by
    simp [renderCycle]
  refine ⟨hlen, by rw [hmap, h], ?_, rfl⟩
  have hnot : (renderCycle results).countP isFullRow
      = (renderCycle results).length - (renderCycle results).countP isFallback := by
    have := countP_not_length isFallback (renderCycle results)
    calc (renderCycle results).countP isFullRow
        = (renderCycle results).countP (fun r => !isFallback r) := by
          refine List.countP_congr ?_
          intro r _
          rfl
      _ = (renderCycle results).length - (renderCycle results).countP isFallback := this
  rw [hnot, hlen, hmap, h]

/-- Three summary records, the middle detail fetch failed: three rows
committed, one fallback, two full, no abort. -/
theorem renderCycle_partial_failure_witness :
    (renderCycle [(SummaryRecord.mk "1" "a", some (DetailRecord.mk "d1")),
        (SummaryRecord.mk "2" "b", none),
        (SummaryRecord.mk "3" "c", some (DetailRecord.mk "d3"))]).length
      = ([(SummaryRecord.mk "1" "a", some (DetailRecord.mk "d1")),
        (SummaryRecord.mk "2" "b", none),
        (SummaryRecord.mk "3" "c", some (DetailRecord.mk "d3"))] :
          List (SummaryRecord × Option DetailRecord)).length
    ∧ (renderCycle [(SummaryRecord.mk "1" "a", some (DetailRecord.mk "d1")),
        (SummaryRecord.mk "2" "b", none),
        (SummaryRecord.mk "3" "c", some (DetailRecord.mk "d3"))]).countP isFallback = 1
    ∧ (renderCycle [(SummaryRecord.mk "1" "a", some (DetailRecord.mk "d1")),
        (SummaryRecord.mk "2" "b", none),
        (SummaryRecord.mk "3" "c", some (DetailRecord.mk "d3"))]).countP isFullRow
      = ([(SummaryRecord.mk "1" "a", some (DetailRecord.mk "d1")),
        (SummaryRecord.mk "2" "b", none),
        (SummaryRecord.mk "3" "c", some (DetailRecord.mk "d3"))] :
          List (SummaryRecord × Option DetailRecord)).length - 1
    ∧ commitCycle [(SummaryRecord.mk "1" "a", some (DetailRecord.mk "d1")),
        (SummaryRecord.mk "2" "b", none),
        (SummaryRecord.mk "3" "c", some (DetailRecord.mk "d3"))]
      = Except.ok (renderCycle [(SummaryRecord.mk "1" "a", some (DetailRecord.mk "d1")),
        (SummaryRecord.mk "2" "b", none),
        (SummaryRecord.mk "3" "c", some (DetailRecord.mk "d3"))]) :=
  renderCycle_partial_failure
    [(SummaryRecord.mk "1" "a", some (DetailRecord.mk "d1")),
      (SummaryRecord.mk "2" "b", none),
      (SummaryRecord.mk "3" "c", some (DetailRecord.mk "d3"))]
    (by decide)

/-- Claim C7: an initialization failure is reported as inline in-page
error text: when the loading element exists its content is replaced by an
error-classed paragraph that contains the error's message. -/
theorem handleInitializationError_reports (dom : Dom) (lid msg : String) (e : Element)
    (h : dom.byId lid = some e) :
    handleInitializationError dom lid msg
        = [DomEffect.setInnerHTML e (errorParagraphHTML msg)]
    ∧ containsStr (errorParagraphHTML msg) msg = true
    ∧ strStartsWith (errorParagraphHTML msg) "<p class=\"error\">" = true := by
  refine ⟨by simp [handleInitializationError, h], ?_, ?_⟩
  · rw [errorParagraphHTML]
    exact containsStr_append _ msg _
  · rw [errorParagraphHTML, strStartsWith]
    simp only [String.data_append]
    apply isPrefixL_append_of
    apply isPrefixL_append_of
    decide

/-- With the loading element present, a failure message appears verbatim
inside the error paragraph written to the page. -/
theorem handleInitializationError_reports_witness :
    handleInitializationError demoDom "loading" "Failed to load database file"
        = [DomEffect.setInnerHTML 0 (errorParagraphHTML "Failed to load database file")]
    ∧ containsStr (errorParagraphHTML "Failed to load database file")
        "Failed to load database file" = true
    ∧ strStartsWith (errorParagraphHTML "Failed to load database file")
        "<p class=\"error\">" = true :=
  handleInitializationError_reports demoDom "loading" "Failed to load database file" 0
    (by decide)

/-- Claim C4 (counterexample): the error-display path does not sanitize.
handleInitializationError writes error.message verbatim into innerHTML:
for a message carrying markup, the tag reaches the written page content
even though the sanitizer would have reduced the message to plain text. -/
theorem handleInitializationError_skips_sanitizer :
    handleInitializationError demoDom "loading" "<img src=x onerror=alert(1)>Name"
        = [DomEffect.setInnerHTML 0
            (errorParagraphHTML "<img src=x onerror=alert(1)>Name")]
    ∧ containsStr (errorParagraphHTML "<img src=x onerror=alert(1)>Name")
        "<img src=x onerror=alert(1)>" = true
    ∧ sanitize "<img src=x onerror=alert(1)>Name" = "Name"
    ∧ sanitize "<img src=x onerror=alert(1)>Name" ≠ "<img src=x onerror=alert(1)>Name" := by
  decide

/-- Claim C4 (amended): render-pipeline fields pass through the sanitizer
(renderRow applies it to every field), while the error-display path
writes the message unsanitized; every error message loadSqlDatabase can
produce is a fixed plain-text string the sanitizer leaves unchanged, so
the paragraph this path writes in the given sources equals the one a
sanitizing path would have written. -/
theorem loadSqlDatabase_error_messages_plain (env : SqlJsEnv) (path e : String)
    (herr : (loadSqlDatabase env path).1 = Except.error e) :
    sanitize e = e
    ∧ errorParagraphHTML e
        = "<p class=\"error\">Error loading database: " ++ sanitize e ++ "</p>"
    ∧ (∀ s d, isFallback (renderRow s d) = false →
        renderRow s d = RenderedRow.full (sanitize s.name)
          (sanitize (match d with | some det => det.description | none => ""))) := by
  have he : e = "sql.js library not loaded" ∨ e = "Failed to load database file" := by
    by_cases hb : env.initSqlJsLoaded = false
    · simp [loadSqlDatabase, hb] at herr
      exact Or.inl herr.symm
    · by_cases hr : (env.response path).ok = false
      · simp [loadSqlDatabase, hb, hr] at herr
        exact Or.inr herr.symm
      · simp [loadSqlDatabase, hb, hr] at herr
  have hrow : ∀ (s : SummaryRecord) (d : Option DetailRecord),
      isFallback (renderRow s d) = false →
      renderRow s d = RenderedRow.full (sanitize s.name)
        (sanitize (match d with | some det => det.description | none => "")) := by
    intro s d hd
    cases d with
    | none => simp [isFallback_renderRow] at hd
    | some det => rfl
  rcases he with he | he <;> subst he
  · exact ⟨by decide, by decide, hrow⟩
  · exact ⟨by decide, by decide, hrow⟩

/-- The message thrown when the sql.js library is missing is plain text
unchanged by the sanitizer. -/
theorem loadSqlDatabase_error_messages_plain_witness :
    sanitize "sql.js library not loaded" = "sql.js library not loaded"
    ∧ errorParagraphHTML "sql.js library not loaded"
        = "<p class=\"error\">Error loading database: "
            ++ sanitize "sql.js library not loaded" ++ "</p>"
    ∧ (∀ s d, isFallback (renderRow s d) = false →
        renderRow s d = RenderedRow.full (sanitize s.name)
          (sanitize (match d with | some det => det.description | none => ""))) :=
  loadSqlDatabase_error_messages_plain demoSqlEnvNoLib "dawncaster-cards.db"
    "sql.js library not loaded" rfl

/-- Claim C8 (evaluation at the failing input): resolvePath accepts the
traversal /../rootx/secret because /a/rootx/secret passes the plain
string-prefix check against the root /a/root, and the server then serves
that file although it lies outside the root directory. -/
theorem serveRequest_prefix_escape :
    resolvePath ["a", "root"] "/../rootx/secret" = some "/a/rootx/secret"
    ∧ strStartsWith "/a/rootx/secret" "/a/root" = true
    ∧ strStartsWith "/a/rootx/secret" "/a/root/" = false
    ∧ ("/a/rootx/secret" : String) ≠ "/a/root"
    ∧ (serveRequest escapeDemoFs ["a", "root"] (some "/../rootx/secret")).1
        = HttpResponse.mk 200 "top secret" := by
  decide

/-- Claim C9: loadSqlDatabase fails exactly when the sql.js library is
missing or the asset fetch response is not ok; on success it returns the
database built from the fetched bytes; and every fetch it issues carries
cache mode no-store. -/
theorem loadSqlDatabase_spec (env : SqlJsEnv) (path : String)
    (call : FetchCall) (hcall : call ∈ (loadSqlDatabase env path).2) :
    (resultIsError (loadSqlDatabase env path).1 = true
      ↔ (env.initSqlJsLoaded = false ∨ (env.response path).ok = false))
    ∧ (env.initSqlJsLoaded = true → (env.response path).ok = true →
        (loadSqlDatabase env path).1 = Except.ok (Database.mk (env.response path).bytes))
    ∧ call.cache = "no-store" := by
  cases hb : env.initSqlJsLoaded <;> cases hr : (env.response path).ok <;>
    simp_all [loadSqlDatabase, resultIsError]

/-- In a healthy environment the load succeeds with the fetched bytes and
the single fetch call disables browser caching. -/
theorem loadSqlDatabase_spec_witness :
    (resultIsError (loadSqlDatabase demoSqlEnv "dawncaster-cards.db").1 = true
      ↔ (demoSqlEnv.initSqlJsLoaded = false
          ∨ (demoSqlEnv.response "dawncaster-cards.db").ok = false))
    ∧ (demoSqlEnv.initSqlJsLoaded = true →
        (demoSqlEnv.response "dawncaster-cards.db").ok = true →
        (loadSqlDatabase demoSqlEnv "dawncaster-cards.db").1
          = Except.ok (Database.mk (demoSqlEnv.response "dawncaster-cards.db").bytes))
    ∧ (FetchCall.mk "dawncaster-cards.db" "no-store").cache = "no-store" :=
  loadSqlDatabase_spec demoSqlEnv "dawncaster-cards.db"
    (FetchCall.mk "dawncaster-cards.db" "no-store") (by decide)

/-- Claim C10: the shared DOM helpers are total on missing targets:
falsy inputs give null and the empty collection, an unresolvable element
makes setupDebouncedInput register nothing and return the no-op cancel
function, and finalizeLoading and handleInitializationError perform no
effect when their target elements are absent. -/
theorem dom_helpers_total (dom : Dom) (x : SelOrEl) (cfg : FinalizeConfig)
    (lid msg : String) (delay : Nat)
    (hx : resolveElement dom x = none)
    (h1 : dom.byId cfg.loadingId = none)
    (h2 : dom.queryOne cfg.filtersSelector = none)
    (h3 : dom.byId cfg.resultsInfoId = none)
    (hl : dom.byId lid = none) :
    resolveElement dom SelOrEl.nullish = none
    ∧ resolveElements dom SelOrEl.nullish = []
    ∧ resolveElement dom (SelOrEl.selector "") = none
    ∧ resolveElements dom (SelOrEl.selector "") = []
    ∧ setupDebouncedInput dom x delay = ([], CancelFn.noop)
    ∧ attachFilterListeners dom SelOrEl.nullish = []
    ∧ finalizeLoading dom cfg = []
    ∧ handleInitializationError dom lid msg = [] := by
  refine ⟨rfl, rfl, rfl, rfl, ?_, rfl, ?_, ?_⟩
  · simp [setupDebouncedInput, hx]
  · by_cases hf : cfg.filtersSelector == "" <;>
      by_cases hri : cfg.resultsInfoId == "" <;>
        simp [finalizeLoading, h1, h2, h3, hf, hri]
  · simp [handleInitializationError, hl]

/-- On an empty document every helper is a no-op rather than a failure. -/
theorem dom_helpers_total_witness :
    resolveElement emptyDom SelOrEl.nullish = none
    ∧ resolveElements emptyDom SelOrEl.nullish = []
    ∧ resolveElement emptyDom (SelOrEl.selector "") = none
    ∧ resolveElements emptyDom (SelOrEl.selector "") = []
    ∧ setupDebouncedInput emptyDom (SelOrEl.selector "#search") 300 = ([], CancelFn.noop)
    ∧ attachFilterListeners emptyDom SelOrEl.nullish = []
    ∧ finalizeLoading emptyDom defaultFinalizeConfig = []
    ∧ handleInitializationError emptyDom "loading" "boom" = [] :=
  dom_helpers_total emptyDom (SelOrEl.selector "#search") defaultFinalizeConfig
    "loading" "boom" 300 rfl rfl rfl rfl rfl

end Dawncaster
